import Mathlib

/-!
Verification development for the identity-cache synchronization subsystem of
Cilium (package pkg/identity/cache): the event-collection algorithm of the
identity watcher (collectEvent) and the read path of the caching identity
allocator (GetIdentityCache, GetIdentities, LookupIdentity,
LookupIdentityByID).

Modelling conventions:
- Go maps keyed by a numeric identity are embedded as association lists with
  unique keys; mapInsert / mapErase / mapFind? implement Go map assignment,
  delete and indexing.  Iteration order of a Go map is indeterminate; folds
  over the association list fix one order, which is immaterial to the
  properties proved here.
- identity.NumericIdentity (uint32) and idpool.ID (uint64) are embedded as
  Nat; no property proved here depends on their width.
- labels.Labels and labels.LabelArray both carry a collection of labels; the
  read path converts the former to the latter with Labels.LabelArray().  Both
  are embedded as a list of labels.
- The external collaborators (the distributed allocator, the node-local
  identity store and the reserved-identity table) are embedded at their
  interfaces: lists of cached entries plus lookup functions.
- A Go nil-pointer dereference (calling a method on an unconfigured
  collaborator, as the unguarded code paths do) is embedded as the
  GoResult.panicked outcome.
-/

namespace Cilium

/-- identity.NumericIdentity: the compact numeric security identity. -/
abbrev NumericIdentity := Nat

/-- labels.Label: a (key, value, source) triple. -/
structure Label where
  key : String
  value : String
  source : String
deriving DecidableEq

/-- labels.LabelArray: an ordered collection of labels. -/
abbrev LabelArray := List Label

/-- identity.Identity as used by the read path: a numeric identity paired
with its label set. -/
structure Identity where
  id : NumericIdentity
  labels : LabelArray
deriving DecidableEq

/-- allocator.AllocatorKey values that can appear in the allocator's cache or
in an event payload: either the recognized label-bearing GlobalIdentity key or
a value of some other dynamic type (which the code skips with a warning). -/
inductive AllocatorKey where
  | globalIdentity (lblArray : LabelArray)
  | otherKey
deriving DecidableEq

/-- kvstore.EventType: the kind of a raw allocator event. -/
inductive EventType where
  | create
  | delete
  | modify
deriving DecidableEq

/-- allocator.AllocatorEvent: a raw event from the distributed allocator's
event channel.  Only create events carry a key; the key field is nil
(embedded as none) otherwise. -/
structure AllocatorEvent where
  typ : EventType
  id : NumericIdentity
  key : Option AllocatorKey
deriving DecidableEq

/-- IdentityCache: a mapping from numeric identity to label set, embedded as
an association list with unique keys. -/
abbrev IdentityCache := List (NumericIdentity × LabelArray)

/-- Go map deletion: remove the entry with the given key, if any. -/
def mapErase (m : IdentityCache) (id : NumericIdentity) : IdentityCache :=
  m.filter (fun p => p.1 != id)

/-- Go map indexing: the value stored under the given key, if any. -/
def mapFind? (m : IdentityCache) (id : NumericIdentity) : Option LabelArray :=
  (m.find? (fun p => p.1 == id)).map Prod.snd

/-- Go two-valued map indexing: whether the key is present. -/
def mapMemb (m : IdentityCache) (id : NumericIdentity) : Bool :=
  (mapFind? m id).isSome

/-- Go map assignment: insert or overwrite the value under the given key. -/
def mapInsert (m : IdentityCache) (id : NumericIdentity) (v : LabelArray) :
    IdentityCache :=
  mapErase m id ++ [(id, v)]

/-- collectEvent (pkg/identity/cache, watcher): record one raw allocator
event into the per-iteration added / deleted sets, keeping every identity in
at most one of the two sets.  Returns the updated sets and whether the event
was collected.  A create event whose key is the recognized GlobalIdentity
first evicts the identity from deleted and then overwrites it in added; any
non-create event (the callers pass only create or delete here) evicts the
identity from added and records it in deleted with an empty label set; a
create event with an unrecognized key is ignored. -/
def collectEvent (event : AllocatorEvent) (added deleted : IdentityCache) :
    IdentityCache × IdentityCache × Bool :=
  let id := event.id
  if event.typ = EventType.create then
    match event.key with
    | some (AllocatorKey.globalIdentity la) =>
      let deleted := if mapMemb deleted id then mapErase deleted id else deleted
      let added := mapInsert added id la
      (added, deleted, true)
    | _ =>
      (added, deleted, false)
  else
    let added := if mapMemb added id then mapErase added id else added
    let deleted := mapInsert deleted id []
    (added, deleted, true)

/-- collectEvents: the accumulated effect of one watcher iteration, applying
collectEvent to each event of the batch in order, threading the added and
deleted sets. -/
def collectEvents (evs : List AllocatorEvent) (added deleted : IdentityCache) :
    IdentityCache × IdentityCache :=
  match evs with
  | [] => (added, deleted)
  | e :: rest =>
    let r := collectEvent e added deleted
    collectEvents rest r.1 r.2.1

/-- Outcome of running a Go operation that may hit a nil-pointer
dereference: either a normal value, or a runtime panic. -/
inductive GoResult (α : Type) where
  | panicked
  | ok (val : α)
deriving DecidableEq

/-- Interface embedding of the distributed allocator (allocator.Allocator):
its locally cached entries (id, value) as visited by ForeachCache, the
Get(key) read used by LookupIdentity, and the GetByID read used by
LookupIdentityByID.  Both reads return a value or an error. -/
structure Allocator where
  cacheEntries : List (NumericIdentity × Option AllocatorKey)
  get : AllocatorKey → Except Unit NumericIdentity
  getByID : NumericIdentity → Except Unit AllocatorKey

/-- Interface embedding of the node-local identity store
(localIdentityCache): the identities it holds. -/
structure LocalIdentityCache where
  identities : List Identity

/-- localIdentityCache.lookupByID: find a local identity by its numeric id. -/
def LocalIdentityCache.lookupByID (l : LocalIdentityCache)
    (id : NumericIdentity) : Option Identity :=
  l.identities.find? (fun i => i.id == id)

/-- localIdentityCache.lookup: find a local identity by its label set. -/
def LocalIdentityCache.lookup (l : LocalIdentityCache)
    (lbls : LabelArray) : Option Identity :=
  l.identities.find? (fun i => i.labels == lbls)

/-- ReservedTable: the static reserved-identity table
(identity.ReservedIdentityCache), mapping a small fixed set of numeric
identities to their well-known label sets. -/
abbrev ReservedTable := List (NumericIdentity × LabelArray)

/-- identity.LookupReservedIdentity: lookup-by-id in the reserved table. -/
def lookupReservedIdentity (reserved : ReservedTable)
    (id : NumericIdentity) : Option Identity :=
  (reserved.find? (fun p => p.1 == id)).map (fun p => Identity.mk p.1 p.2)

/-- identity.LookupReservedIdentityByLabels: lookup-by-labels in the
reserved table. -/
def lookupReservedIdentityByLabels (reserved : ReservedTable)
    (lbls : LabelArray) : Option Identity :=
  (reserved.find? (fun p => p.2 == lbls)).map (fun p => Identity.mk p.1 p.2)

/-- identity.IdentityUnknown: the unknown-identity sentinel value (0). -/
def IdentityUnknown : NumericIdentity := 0

/-- idpool.NoID: the allocator's sentinel for "no identity assigned" (0). -/
def NoID : NumericIdentity := 0

/-- unknownIdentity: the fixed, statically-constructed unknown-identity
record, pairing the sentinel value with the reserved "unknown" label. -/
def unknownIdentity : Identity :=
  Identity.mk IdentityUnknown [Label.mk "unknown" "" "reserved"]

/-- CachingIdentityAllocator: the identity cache manager.  Either
collaborator pointer may be nil (none). -/
structure CachingIdentityAllocator where
  identityAllocator : Option Allocator
  localIdentities : Option LocalIdentityCache

/-- Body of the ForeachCache closure in GetIdentityCache: record a cached
allocator entry whose value is the recognized GlobalIdentity key, skip a nil
value silently and any other value with a warning. -/
def cacheForeachStep (c : IdentityCache)
    (p : NumericIdentity × Option AllocatorKey) : IdentityCache :=
  match p.2 with
  | some (AllocatorKey.globalIdentity la) => mapInsert c p.1 la
  | _ => c

/-- GetIdentityCache: build a fresh cache of all known identities, merging
(in this order) the distributed allocator's cached entries whose value is the
recognized GlobalIdentity key, the reserved identities, and the node-local
identities.  Both collaborators are nil-guarded, so the operation is total
and never returns an error. -/
def GetIdentityCache (reserved : ReservedTable)
    (m : CachingIdentityAllocator) : IdentityCache :=
  let cache : IdentityCache := []
  let cache := match m.identityAllocator with
    | some alloc => alloc.cacheEntries.foldl cacheForeachStep cache
    | none => cache
  let cache := reserved.foldl (fun c p => mapInsert c p.1 p.2) cache
  let cache := match m.localIdentities with
    | some locals =>
      locals.identities.foldl (fun c i => mapInsert c i.id i.labels) cache
    | none => cache
  cache

/-- GetIdentities: return all known identities as a list of records, from
the same three sources as GetIdentityCache and in the same order, but with
no nil-guard on either collaborator: calling it with an unconfigured
allocator or local store dereferences a nil pointer, embedded as the
panicked outcome. -/
def GetIdentities (reserved : ReservedTable)
    (m : CachingIdentityAllocator) : GoResult (List Identity) :=
  match m.identityAllocator with
  | none => GoResult.panicked
  | some alloc =>
    let identities := alloc.cacheEntries.foldl (fun acc p =>
      match p.2 with
      | some (AllocatorKey.globalIdentity la) => acc ++ [Identity.mk p.1 la]
      | _ => acc) []
    let identities := identities ++ reserved.map (fun p => Identity.mk p.1 p.2)
    match m.localIdentities with
    | none => GoResult.panicked
    | some locals => GoResult.ok (identities ++ locals.identities)

/-- LookupIdentity: look up an identity by its labels without creating it:
reserved table first, then the node-local store, then (if configured) the
distributed allocator; an allocator error or the NoID sentinel yields
not-found.  The local store is dereferenced without a nil-guard. -/
def LookupIdentity (reserved : ReservedTable) (m : CachingIdentityAllocator)
    (lbls : LabelArray) : GoResult (Option Identity) :=
  match lookupReservedIdentityByLabels reserved lbls with
  | some reservedIdentity => GoResult.ok (some reservedIdentity)
  | none =>
    match m.localIdentities with
    | none => GoResult.panicked
    | some locals =>
      match locals.lookup lbls with
      | some localIdentity => GoResult.ok (some localIdentity)
      | none =>
        match m.identityAllocator with
        | none => GoResult.ok none
        | some alloc =>
          match alloc.get (AllocatorKey.globalIdentity lbls) with
          | Except.error _ => GoResult.ok none
          | Except.ok id =>
            if id = NoID then GoResult.ok none
            else GoResult.ok (some (Identity.mk id lbls))

/-- LookupIdentityByID: look up an identity by its numeric id: the
unknown-identity sentinel short-circuits to the fixed unknown record, then
the reserved table; then, if the distributed allocator is unconfigured, the
lookup returns not-found at once (the local store is not consulted); then
the node-local store (dereferenced without a nil-guard), then the allocator
by id, whose errors and unrecognized key values yield not-found. -/
def LookupIdentityByID (reserved : ReservedTable)
    (m : CachingIdentityAllocator) (id : NumericIdentity) :
    GoResult (Option Identity) :=
  if id = IdentityUnknown then GoResult.ok (some unknownIdentity)
  else
    match lookupReservedIdentity reserved id with
    | some reservedIdentity => GoResult.ok (some reservedIdentity)
    | none =>
      match m.identityAllocator with
      | none => GoResult.ok none
      | some alloc =>
        match m.localIdentities with
        | none => GoResult.panicked
        | some locals =>
          match locals.lookupByID id with
          | some localIdentity => GoResult.ok (some localIdentity)
          | none =>
            match alloc.getByID id with
            | Except.error _ => GoResult.ok none
            | Except.ok (AllocatorKey.globalIdentity la) =>
              GoResult.ok (some (Identity.mk id la))
            | Except.ok AllocatorKey.otherKey => GoResult.ok none

/-- Whether a cached allocator value is the recognized label-bearing
GlobalIdentity key. -/
def recognizedValue : Option AllocatorKey → Bool
  | some (AllocatorKey.globalIdentity _) => true
  | _ => false

/-- Value of the last entry carrying the given key in an association list:
the value such a key ends up with after the entries are written into a map
in list order. -/
def lastAssoc (l : List (NumericIdentity × LabelArray))
    (id : NumericIdentity) : Option LabelArray :=
  (l.reverse.find? (fun p => p.1 == id)).map Prod.snd

/-! Concrete inputs used by the witnesses and the counterexample. -/

/-- Label app=foo of the spec's end-to-end scenarios. -/
def appFoo : Label := Label.mk "app" "foo" "k8s"

/-- Label app=bar of the spec's end-to-end scenarios. -/
def appBar : Label := Label.mk "app" "bar" "k8s"

/-- Reserved label world. -/
def worldLabel : Label := Label.mk "world" "" "reserved"

/-- Event batch of the spec's end-to-end watcher scenario:
Create(7, app=foo), Create(8, app=bar), Delete(7). -/
def scenarioEvents : List AllocatorEvent :=
  [AllocatorEvent.mk EventType.create 7 (some (AllocatorKey.globalIdentity [appFoo])),
   AllocatorEvent.mk EventType.create 8 (some (AllocatorKey.globalIdentity [appBar])),
   AllocatorEvent.mk EventType.delete 7 none]

/-- Concrete reserved table: identity 1 is world. -/
def cexReserved : ReservedTable := [(1, [worldLabel])]

/-- Concrete local store holding identity 1000 with label app=foo. -/
def cexLocals : LocalIdentityCache :=
  LocalIdentityCache.mk [Identity.mk 1000 [appFoo]]

/-- Concrete manager state with no distributed allocator and the local store
cexLocals. -/
def cexM : CachingIdentityAllocator :=
  CachingIdentityAllocator.mk none (some cexLocals)

/-- Concrete allocator whose cache holds a recognized entry for 7, an
unrecognized entry for 9, and a nil entry for 10. -/
def cexAlloc : Allocator :=
  Allocator.mk
    [(7, some (AllocatorKey.globalIdentity [appFoo])),
     (9, some AllocatorKey.otherKey),
     (10, none)]
    (fun _ => Except.error ())
    (fun _ => Except.error ())

/-- Concrete manager state with the allocator cexAlloc and the local store
cexLocals. -/
def cexMAlloc : CachingIdentityAllocator :=
  CachingIdentityAllocator.mk (some cexAlloc) (some cexLocals)

/-! Association-list map lemmas. -/

@[simp]
theorem mapFind?_nil (id : NumericIdentity) : mapFind? [] id = none := rfl

theorem mapFind?_cons (p : NumericIdentity × LabelArray) (m : IdentityCache)
    (id : NumericIdentity) :
    mapFind? (p :: m) id = if p.1 = id then some p.2 else mapFind? m id := by
  by_cases h : p.1 = id
  · simp [mapFind?, List.find?, h]
  · have hb : (p.1 == id) = false := by simpa using h
    simp [mapFind?, List.find?, hb, h]

theorem mapErase_cons (p : NumericIdentity × LabelArray) (t : IdentityCache)
    (k : NumericIdentity) :
    mapErase (p :: t) k = if p.1 = k then mapErase t k else p :: mapErase t k := by
  by_cases h : p.1 = k <;> simp [mapErase, List.filter_cons, h]

theorem mapFind?_erase (m : IdentityCache) (k id : NumericIdentity) :
    mapFind? (mapErase m k) id = if id = k then none else mapFind? m id := by
  induction m with
  | nil => by_cases h : id = k <;> simp [mapErase, h]
  | cons p t ih =>
    rw [mapErase_cons]
    by_cases hp : p.1 = k
    · rw [if_pos hp, ih, mapFind?_cons]
      by_cases hik : id = k
      · simp [hik]
      · have hpid : ¬ p.1 = id := fun hh => hik (hh.symm.trans hp)
        simp [hik, hpid]
    · rw [if_neg hp, mapFind?_cons, mapFind?_cons, ih]
      by_cases hik : id = k
      · have hpid : ¬ p.1 = id := fun hh => hp (hh.trans hik)
        simp [hik, hpid, hp]
      · by_cases hpid : p.1 = id <;> simp [hik, hpid]

@[simp]
theorem mapFind?_erase_self (m : IdentityCache) (id : NumericIdentity) :
    mapFind? (mapErase m id) id = none := by
  simp [mapFind?_erase]

theorem mapFind?_erase_ne (m : IdentityCache) (k id : NumericIdentity)
    (h : id ≠ k) : mapFind? (mapErase m k) id = mapFind? m id := by
  simp [mapFind?_erase, h]

theorem mapFind?_append_last (l : IdentityCache) (k id : NumericIdentity)
    (v : LabelArray) (hl : mapFind? l k = none) :
    mapFind? (l ++ [(k, v)]) id = if id = k then some v else mapFind? l id := by
  induction l with
  | nil =>
    rw [List.nil_append, mapFind?_cons]
    by_cases h : id = k
    · subst h; simp
    · rw [if_neg (fun hh => h hh.symm), if_neg h, mapFind?_nil]
  | cons p t ih =>
    rw [mapFind?_cons] at hl
    by_cases hpk : p.1 = k
    · simp [hpk] at hl
    · rw [if_neg hpk] at hl
      rw [List.cons_append, mapFind?_cons, mapFind?_cons]
      by_cases hpid : p.1 = id
      · have hik : id ≠ k := fun hh => hpk (hpid.trans hh)
        simp [hpid, hik]
      · rw [if_neg hpid, ih hl]
        simp [hpid]

theorem mapFind?_insert (m : IdentityCache) (k id : NumericIdentity)
    (v : LabelArray) :
    mapFind? (mapInsert m k v) id = if id = k then some v else mapFind? m id := by
  rw [mapInsert, mapFind?_append_last (mapErase m k) k id v (mapFind?_erase_self m k)]
  by_cases h : id = k
  · simp [h]
  · simp [h, mapFind?_erase_ne m k id h]

theorem mapMemb_insert (m : IdentityCache) (k id : NumericIdentity)
    (v : LabelArray) :
    mapMemb (mapInsert m k v) id = (id == k || mapMemb m id) := by
  by_cases h : id = k <;> simp [mapMemb, mapFind?_insert, h]

theorem mapMemb_erase (m : IdentityCache) (k id : NumericIdentity) :
    mapMemb (mapErase m k) id = (!(id == k) && mapMemb m id) := by
  by_cases h : id = k <;> simp [mapMemb, mapFind?_erase, h]

theorem mapErase_of_not_memb (m : IdentityCache) (id : NumericIdentity)
    (h : mapMemb m id = false) : mapErase m id = m := by
  induction m with
  | nil => rfl
  | cons p t ih =>
    rw [mapMemb, mapFind?_cons] at h
    by_cases hpid : p.1 = id
    · simp [hpid] at h
    · rw [if_neg hpid] at h
      rw [mapErase_cons, if_neg hpid, ih h]

theorem condErase_eq_erase (m : IdentityCache) (id : NumericIdentity) :
    (if mapMemb m id then mapErase m id else m) = mapErase m id := by
  cases h : mapMemb m id
  · rw [if_neg (by simp [h]), mapErase_of_not_memb m id h]
  · rw [if_pos (by simp [h])]

/-! Lemmas about the collect operation. -/

theorem collectEvents_append (xs ys : List AllocatorEvent)
    (a d : IdentityCache) :
    collectEvents (xs ++ ys) a d =
      collectEvents ys (collectEvents xs a d).1 (collectEvents xs a d).2 := by
  induction xs generalizing a d with
  | nil => rfl
  | cons e rest ih =>
    rw [List.cons_append]
    show collectEvents (rest ++ ys) (collectEvent e a d).1 (collectEvent e a d).2.1 = _
    rw [ih]
    rfl

/-- Effect of a single collected delete event on the two sets: the identity
ends up in deleted with an empty label set and is evicted from added,
whatever the prior contents of the two sets. -/
theorem collectEvent_delete_effect (e : AllocatorEvent) (a d : IdentityCache)
    (h : e.typ ≠ EventType.create) :
    mapFind? (collectEvent e a d).2.1 e.id = some [] ∧
      mapMemb (collectEvent e a d).1 e.id = false := by
  rw [collectEvent]
  rw [if_neg h]
  refine ⟨by simp [mapFind?_insert], ?_⟩
  rw [condErase_eq_erase, mapMemb_erase]
  simp

/-- Effect of a single collected recognized create event on the two sets:
the identity ends up in added with the event's label set and is evicted from
deleted, whatever the prior contents of the two sets. -/
theorem collectEvent_create_effect (e : AllocatorEvent) (a d : IdentityCache)
    (la : LabelArray) (ht : e.typ = EventType.create)
    (hk : e.key = some (AllocatorKey.globalIdentity la)) :
    mapFind? (collectEvent e a d).1 e.id = some la ∧
      mapMemb (collectEvent e a d).2.1 e.id = false := by
  rw [collectEvent, if_pos ht, hk]
  refine ⟨by simp [mapFind?_insert], ?_⟩
  show mapMemb (if mapMemb d e.id then mapErase d e.id else d) e.id = false
  rw [condErase_eq_erase, mapMemb_erase]
  simp

/-- Disjointness of the added and deleted sets is preserved by every single
call to collectEvent, whatever the event. -/
theorem collectEvent_preserves_disjoint (e : AllocatorEvent)
    (a d : IdentityCache)
    (h : ∀ id, mapMemb a id = true → mapMemb d id = false) :
    ∀ id, mapMemb (collectEvent e a d).1 id = true →
      mapMemb (collectEvent e a d).2.1 id = false := by
  intro id
  by_cases ht : e.typ = EventType.create
  · match hk : e.key with
    | some (AllocatorKey.globalIdentity la) =>
      have hres : collectEvent e a d =
          (mapInsert a e.id la,
            (if mapMemb d e.id then mapErase d e.id else d), true) := by
        simp [collectEvent, ht, hk]
      rw [hres]
      simp only
      rw [condErase_eq_erase]
      intro hmem
      rw [mapMemb_insert] at hmem
      rw [mapMemb_erase]
      by_cases hie : id = e.id
      · simp [hie]
      · have hb : (id == e.id) = false := by simpa using hie
        rw [hb] at hmem
        simp only [Bool.false_or] at hmem
        simp [hb, h id hmem]
    | some AllocatorKey.otherKey =>
      have hres : collectEvent e a d = (a, d, false) := by
        simp [collectEvent, ht, hk]
      rw [hres]
      exact h id
    | none =>
      have hres : collectEvent e a d = (a, d, false) := by
        simp [collectEvent, ht, hk]
      rw [hres]
      exact h id
  · have hres : collectEvent e a d =
        ((if mapMemb a e.id then mapErase a e.id else a),
          mapInsert d e.id [], true) := by
      simp [collectEvent, ht]
    rw [hres]
    simp only
    rw [condErase_eq_erase]
    intro hmem
    rw [mapMemb_erase] at hmem
    rw [mapMemb_insert]
    by_cases hie : id = e.id
    · rw [hie] at hmem
      simp at hmem
    · have hb : (id == e.id) = false := by simpa using hie
      rw [hb] at hmem
      simp only [Bool.not_false, Bool.true_and] at hmem
      simp [hb, h id hmem]

/-- Disjointness of the added and deleted sets is preserved by any run of
collectEvent over a batch of events. -/
theorem collectEvents_preserve_disjoint (evs : List AllocatorEvent)
    (a d : IdentityCache)
    (h : ∀ id, mapMemb a id = true → mapMemb d id = false) :
    ∀ id, mapMemb (collectEvents evs a d).1 id = true →
      mapMemb (collectEvents evs a d).2 id = false := by
  induction evs generalizing a d with
  | nil => exact h
  | cons e rest ih =>
    show ∀ id,
      mapMemb (collectEvents rest (collectEvent e a d).1 (collectEvent e a d).2.1).1 id = true →
      mapMemb (collectEvents rest (collectEvent e a d).1 (collectEvent e a d).2.1).2 id = false
    exact ih _ _ (collectEvent_preserves_disjoint e a d h)

theorem collectEvents_singleton (e : AllocatorEvent) (a d : IdentityCache) :
    collectEvents [e] a d = ((collectEvent e a d).1, (collectEvent e a d).2.1) := rfl

/-- Claim C1: for every sequence of Create/Delete events applied by
collectEvent to the initially-empty added and deleted sets within one
watcher iteration, the resulting added and deleted sets are disjoint: no
numeric identity is a key of both at flush time. -/
theorem collect_added_deleted_disjoint (evs : List AllocatorEvent)
    (h : ∀ e ∈ evs, e.typ = EventType.create ∨ e.typ = EventType.delete)
    (id : NumericIdentity) :
    ¬(mapMemb (collectEvents evs [] []).1 id = true ∧
      mapMemb (collectEvents evs [] []).2 id = true) := by
  rintro ⟨ha, hd⟩
  have hbase : ∀ j, mapMemb ([] : IdentityCache) j = true →
      mapMemb ([] : IdentityCache) j = false := by
    intro j hj
    simp [mapMemb] at hj
  have hdis := collectEvents_preserve_disjoint evs [] [] hbase id ha
  rw [hdis] at hd
  exact Bool.false_ne_true hd

/-- Witness for the disjointness claim at the concrete batch of the spec's
end-to-end scenario, checked at identity 7. -/
theorem collect_added_deleted_disjoint_witness :
    ¬(mapMemb (collectEvents scenarioEvents [] []).1 7 = true ∧
      mapMemb (collectEvents scenarioEvents [] []).2 7 = true) :=
  collect_added_deleted_disjoint scenarioEvents (by decide) 7

/-- Claim C2: a recognized Create(id, L) followed later in the same batch by
Delete(id) leaves id present only in the deleted set, mapped to the empty
label set, and absent from the added set, whatever the surrounding events. -/
theorem create_then_delete_only_deleted (evs1 evs2 : List AllocatorEvent)
    (id : NumericIdentity) (la : LabelArray) (k : Option AllocatorKey) :
    mapFind? (collectEvents (evs1 ++
        AllocatorEvent.mk EventType.create id (some (AllocatorKey.globalIdentity la)) ::
        evs2 ++ [AllocatorEvent.mk EventType.delete id k]) [] []).2 id = some [] ∧
      mapMemb (collectEvents (evs1 ++
        AllocatorEvent.mk EventType.create id (some (AllocatorKey.globalIdentity la)) ::
        evs2 ++ [AllocatorEvent.mk EventType.delete id k]) [] []).1 id = false := by
  have hsplit : evs1 ++
      AllocatorEvent.mk EventType.create id (some (AllocatorKey.globalIdentity la)) ::
      evs2 ++ [AllocatorEvent.mk EventType.delete id k] =
      (evs1 ++
        AllocatorEvent.mk EventType.create id (some (AllocatorKey.globalIdentity la)) ::
        evs2) ++ [AllocatorEvent.mk EventType.delete id k] := by
    simp
  rw [hsplit, collectEvents_append, collectEvents_singleton]
  exact ⟨(collectEvent_delete_effect _ _ _ (fun hc => EventType.noConfusion hc)).1,
    (collectEvent_delete_effect _ _ _ (fun hc => EventType.noConfusion hc)).2⟩

/-- Claim C3: Delete(id) followed later in the same batch by a recognized
Create(id, L) leaves id present only in the added set with labels L, and
absent from the deleted set, whatever the surrounding events. -/
theorem delete_then_create_only_added (evs1 evs2 : List AllocatorEvent)
    (id : NumericIdentity) (la : LabelArray) (k : Option AllocatorKey) :
    mapFind? (collectEvents (evs1 ++
        AllocatorEvent.mk EventType.delete id k ::
        evs2 ++ [AllocatorEvent.mk EventType.create id
          (some (AllocatorKey.globalIdentity la))]) [] []).1 id = some la ∧
      mapMemb (collectEvents (evs1 ++
        AllocatorEvent.mk EventType.delete id k ::
        evs2 ++ [AllocatorEvent.mk EventType.create id
          (some (AllocatorKey.globalIdentity la))]) [] []).2 id = false := by
  have hsplit : evs1 ++
      AllocatorEvent.mk EventType.delete id k ::
      evs2 ++ [AllocatorEvent.mk EventType.create id
        (some (AllocatorKey.globalIdentity la))] =
      (evs1 ++ AllocatorEvent.mk EventType.delete id k :: evs2) ++
        [AllocatorEvent.mk EventType.create id
          (some (AllocatorKey.globalIdentity la))] := by
    simp
  rw [hsplit, collectEvents_append, collectEvents_singleton]
  exact ⟨(collectEvent_create_effect _ _ _ la rfl rfl).1,
    (collectEvent_create_effect _ _ _ la rfl rfl).2⟩

/-- Claim C4: a Delete(id) is always recorded: even when no Create event for
id was collected earlier in the batch, the identity ends up in the deleted
set with an empty label set. -/
theorem delete_without_prior_create_recorded (evs : List AllocatorEvent)
    (id : NumericIdentity) (k : Option AllocatorKey)
    (h : ∀ e ∈ evs, ¬(e.typ = EventType.create ∧ e.id = id)) :
    mapFind? (collectEvents (evs ++ [AllocatorEvent.mk EventType.delete id k])
      [] []).2 id = some [] := by
  rw [collectEvents_append, collectEvents_singleton]
  exact (collectEvent_delete_effect _ _ _ (fun hc => EventType.noConfusion hc)).1

/-- Witness for the always-recorded-deletion claim: Create(8, app=bar) then
Delete(7), with no prior Create for 7 in the batch. -/
theorem delete_without_prior_create_recorded_witness :
    mapFind? (collectEvents
      ([AllocatorEvent.mk EventType.create 8
          (some (AllocatorKey.globalIdentity [appBar]))] ++
        [AllocatorEvent.mk EventType.delete 7 none]) [] []).2 7 = some [] :=
  delete_without_prior_create_recorded
    [AllocatorEvent.mk EventType.create 8
      (some (AllocatorKey.globalIdentity [appBar]))] 7 none (by decide)

/-! Lemmas about the read path. -/

theorem lastAssoc_cons (p : NumericIdentity × LabelArray)
    (t : List (NumericIdentity × LabelArray)) (id : NumericIdentity) :
    lastAssoc (p :: t) id =
      (lastAssoc t id).or (if p.1 = id then some p.2 else none) := by
  rw [lastAssoc, lastAssoc, List.reverse_cons, List.find?_append]
  cases hf : t.reverse.find? (fun q => q.1 == id) with
  | some q => simp
  | none =>
    by_cases hpid : p.1 = id
    · simp [List.find?, hpid]
    · have hb : (p.1 == id) = false := by simpa using hpid
      simp [List.find?, hb, hpid]

theorem mapFind?_foldInsert (l : List (NumericIdentity × LabelArray))
    (c : IdentityCache) (id : NumericIdentity) :
    mapFind? (l.foldl (fun c p => mapInsert c p.1 p.2) c) id =
      (lastAssoc l id).or (mapFind? c id) := by
  induction l generalizing c with
  | nil => simp [lastAssoc]
  | cons p t ih =>
    rw [List.foldl_cons, ih, lastAssoc_cons, mapFind?_insert]
    cases hf : lastAssoc t id with
    | some v => simp
    | none =>
      by_cases hpid : id = p.1
      · simp [hpid]
      · have hp2 : ¬ p.1 = id := fun hh => hpid hh.symm
        simp [hpid, hp2]

theorem cacheForeachStep_not_recognized (c : IdentityCache)
    (p : NumericIdentity × Option AllocatorKey)
    (hr : recognizedValue p.2 = false) : cacheForeachStep c p = c := by
  rcases p with ⟨pid, pval⟩
  cases pval with
  | none => rfl
  | some k =>
    cases k with
    | globalIdentity la => simp [recognizedValue] at hr
    | otherKey => rfl

theorem foldl_cacheForeachStep_filter
    (entries : List (NumericIdentity × Option AllocatorKey)) (c : IdentityCache) :
    (entries.filter (fun p => recognizedValue p.2)).foldl cacheForeachStep c =
      entries.foldl cacheForeachStep c := by
  induction entries generalizing c with
  | nil => rfl
  | cons p t ih =>
    rw [List.filter_cons]
    cases hr : recognizedValue p.2
    · rw [if_neg (by simp [hr]), List.foldl_cons,
        cacheForeachStep_not_recognized c p hr]
      exact ih c
    · rw [if_pos (by simp [hr]), List.foldl_cons, List.foldl_cons]
      exact ih (cacheForeachStep c p)

/-! Claim theorems about the read path. -/

/-- Claim C6: GetIdentityCache called with the distributed allocator
unconfigured returns exactly the union of the reserved-identity table and
the node-local store's identities (the local entries taking precedence on a
key collision, as they are merged last); the operation is total, so no error
is ever returned. -/
theorem getIdentityCache_union_no_allocator (reserved : ReservedTable)
    (m : CachingIdentityAllocator) (locals : LocalIdentityCache)
    (hA : m.identityAllocator = none) (hL : m.localIdentities = some locals)
    (id : NumericIdentity) :
    mapFind? (GetIdentityCache reserved m) id =
      (lastAssoc (locals.identities.map (fun i => (i.id, i.labels))) id).or
        (lastAssoc reserved id) := by
  have hunfold : GetIdentityCache reserved m =
      locals.identities.foldl (fun c i => mapInsert c i.id i.labels)
        (reserved.foldl (fun c p => mapInsert c p.1 p.2) []) := by
    simp [GetIdentityCache, hA, hL]
  rw [hunfold]
  have hmap : locals.identities.foldl (fun c i => mapInsert c i.id i.labels)
      (reserved.foldl (fun c p => mapInsert c p.1 p.2) []) =
      (locals.identities.map (fun i => (i.id, i.labels))).foldl
        (fun c p => mapInsert c p.1 p.2)
        (reserved.foldl (fun c p => mapInsert c p.1 p.2) []) := by
    rw [List.foldl_map]
  rw [hmap, mapFind?_foldInsert, mapFind?_foldInsert]
  simp

/-- Witness for the degraded-configuration GetIdentityCache claim: with no
allocator, reserved table {1: world} and local store {1000: app=foo}, the
returned cache maps 1000 to app=foo. -/
theorem getIdentityCache_union_no_allocator_witness :
    mapFind? (GetIdentityCache cexReserved cexM) 1000 = some [appFoo] :=
  (getIdentityCache_union_no_allocator cexReserved cexM cexLocals rfl rfl
    1000).trans rfl

/-- Claim C9: cached allocator entries whose value is not the recognized
GlobalIdentity key are excluded from the cache GetIdentityCache returns and
do not abort its enumeration: the result is the same as if the allocator's
cache held only its recognized entries, with the reserved and local
identities still merged in. -/
theorem getIdentityCache_skips_unrecognized (reserved : ReservedTable)
    (m : CachingIdentityAllocator) (alloc : Allocator)
    (h : m.identityAllocator = some alloc) :
    GetIdentityCache reserved m =
      GetIdentityCache reserved
        (CachingIdentityAllocator.mk
          (some (Allocator.mk
            (alloc.cacheEntries.filter (fun p => recognizedValue p.2))
            alloc.get alloc.getByID))
          m.localIdentities) := by
  simp only [GetIdentityCache, h]
  rw [foldl_cacheForeachStep_filter]

/-- Witness for the unrecognized-entry claim at an allocator cache holding a
recognized entry for 7, an unrecognized entry for 9 and a nil entry for 10. -/
theorem getIdentityCache_skips_unrecognized_witness :
    GetIdentityCache cexReserved cexMAlloc =
      GetIdentityCache cexReserved
        (CachingIdentityAllocator.mk
          (some (Allocator.mk
            (cexAlloc.cacheEntries.filter (fun p => recognizedValue p.2))
            cexAlloc.get cexAlloc.getByID))
          cexMAlloc.localIdentities) :=
  getIdentityCache_skips_unrecognized cexReserved cexMAlloc cexAlloc rfl

/-- Claim C10: GetIdentities nil-guards neither collaborator: it panics
exactly when the distributed allocator or the local identity store is
unconfigured, instead of falling back to the remaining sources the way the
nil-guarded GetIdentityCache does; so it is safe only when both are
configured. -/
theorem getIdentities_panics_iff_collaborator_missing (reserved : ReservedTable)
    (m : CachingIdentityAllocator) :
    GetIdentities reserved m = GoResult.panicked ↔
      (m.identityAllocator = none ∨ m.localIdentities = none) := by
  cases hA : m.identityAllocator with
  | none => simp [GetIdentities, hA]
  | some alloc =>
    cases hL : m.localIdentities with
    | none => simp [GetIdentities, hA, hL]
    | some locals => simp [GetIdentities, hA, hL]

/-- Claim C8: LookupIdentityByID applied to the unknown-identity sentinel
returns the fixed, statically-constructed unknown-identity record, whatever
the reserved table and whatever the state or presence of the allocator and
the local store. -/
theorem lookupIdentityByID_unknown_sentinel (reserved : ReservedTable)
    (m : CachingIdentityAllocator) :
    LookupIdentityByID reserved m IdentityUnknown =
      GoResult.ok (some unknownIdentity) := by
  simp [LookupIdentityByID]

/-- Counterexample to claim C5 as stated: with the distributed allocator
unconfigured, the node-local store is not consulted: the local store holds
identity 1000, yet LookupIdentityByID returns not-found. -/
theorem lookupIdentityByID_nil_allocator_cex :
    cexM.identityAllocator = none ∧
    cexM.localIdentities = some cexLocals ∧
    cexLocals.lookupByID 1000 = some (Identity.mk 1000 [appFoo]) ∧
    LookupIdentityByID cexReserved cexM 1000 = GoResult.ok none :=
  ⟨rfl, rfl, rfl, rfl⟩

/-- Claim C5 (amended): LookupIdentityByID resolves in the order: the
unknown-identity sentinel short-circuits first, then the reserved-by-id
table; then, if the distributed allocator is unconfigured, the lookup
returns not-found at once without consulting the node-local store; with the
allocator configured, the node-local store by id is consulted next and the
distributed allocator by id last. -/
theorem lookupIdentityByID_resolution_order (reserved : ReservedTable)
    (m : CachingIdentityAllocator) (id : NumericIdentity) :
    (id = IdentityUnknown →
      LookupIdentityByID reserved m id = GoResult.ok (some unknownIdentity))
    ∧ (∀ i, id ≠ IdentityUnknown →
        lookupReservedIdentity reserved id = some i →
        LookupIdentityByID reserved m id = GoResult.ok (some i))
    ∧ (id ≠ IdentityUnknown →
        lookupReservedIdentity reserved id = none →
        m.identityAllocator = none →
        LookupIdentityByID reserved m id = GoResult.ok none)
    ∧ (∀ alloc locals i, id ≠ IdentityUnknown →
        lookupReservedIdentity reserved id = none →
        m.identityAllocator = some alloc →
        m.localIdentities = some locals →
        locals.lookupByID id = some i →
        LookupIdentityByID reserved m id = GoResult.ok (some i))
    ∧ (∀ alloc locals la, id ≠ IdentityUnknown →
        lookupReservedIdentity reserved id = none →
        m.identityAllocator = some alloc →
        m.localIdentities = some locals →
        locals.lookupByID id = none →
        alloc.getByID id = Except.ok (AllocatorKey.globalIdentity la) →
        LookupIdentityByID reserved m id = GoResult.ok (some (Identity.mk id la))) := by
  refine ⟨?_, ?_, ?_, ?_, ?_⟩
  · intro h
    simp [LookupIdentityByID, h]
  · intro i hne hres
    simp [LookupIdentityByID, hne, hres]
  · intro hne hres hA
    simp [LookupIdentityByID, hne, hres, hA]
  · intro alloc locals i hne hres hA hL hloc
    simp [LookupIdentityByID, hne, hres, hA, hL, hloc]
  · intro alloc locals la hne hres hA hL hloc hget
    simp [LookupIdentityByID, hne, hres, hA, hL, hloc, hget]

/-- Witness for the amended resolution-order claim: the nil-allocator clause
at identity 1000 against cexM, and the local-store clause against
cexMAlloc. -/
theorem lookupIdentityByID_resolution_order_witness :
    LookupIdentityByID cexReserved cexM 1000 = GoResult.ok none ∧
    LookupIdentityByID cexReserved cexMAlloc 1000 =
      GoResult.ok (some (Identity.mk 1000 [appFoo])) :=
  ⟨(lookupIdentityByID_resolution_order cexReserved cexM 1000).2.2.1
      (by decide) rfl rfl,
    (lookupIdentityByID_resolution_order cexReserved cexMAlloc 1000).2.2.2.1
      cexAlloc cexLocals (Identity.mk 1000 [appFoo]) (by decide) rfl rfl rfl rfl⟩

/-- Claim C7: LookupIdentity resolves labels in the order reserved table,
then node-local store, then distributed allocator, short-circuiting on the
first hit; an unconfigured allocator, an allocator error, and the NoID
sentinel all yield the not-found result, never a hard error. -/
theorem lookupIdentity_resolution_order (reserved : ReservedTable)
    (m : CachingIdentityAllocator) (lbls : LabelArray) :
    (∀ i, lookupReservedIdentityByLabels reserved lbls = some i →
      LookupIdentity reserved m lbls = GoResult.ok (some i))
    ∧ (∀ locals i, lookupReservedIdentityByLabels reserved lbls = none →
        m.localIdentities = some locals →
        locals.lookup lbls = some i →
        LookupIdentity reserved m lbls = GoResult.ok (some i))
    ∧ (∀ locals, lookupReservedIdentityByLabels reserved lbls = none →
        m.localIdentities = some locals →
        locals.lookup lbls = none →
        m.identityAllocator = none →
        LookupIdentity reserved m lbls = GoResult.ok none)
    ∧ (∀ locals alloc, lookupReservedIdentityByLabels reserved lbls = none →
        m.localIdentities = some locals →
        locals.lookup lbls = none →
        m.identityAllocator = some alloc →
        alloc.get (AllocatorKey.globalIdentity lbls) = Except.error () →
        LookupIdentity reserved m lbls = GoResult.ok none)
    ∧ (∀ locals alloc, lookupReservedIdentityByLabels reserved lbls = none →
        m.localIdentities = some locals →
        locals.lookup lbls = none →
        m.identityAllocator = some alloc →
        alloc.get (AllocatorKey.globalIdentity lbls) = Except.ok NoID →
        LookupIdentity reserved m lbls = GoResult.ok none)
    ∧ (∀ locals alloc nid, lookupReservedIdentityByLabels reserved lbls = none →
        m.localIdentities = some locals →
        locals.lookup lbls = none →
        m.identityAllocator = some alloc →
        alloc.get (AllocatorKey.globalIdentity lbls) = Except.ok nid →
        nid ≠ NoID →
        LookupIdentity reserved m lbls =
          GoResult.ok (some (Identity.mk nid lbls))) := by
  refine ⟨?_, ?_, ?_, ?_, ?_, ?_⟩
  · intro i hres
    simp [LookupIdentity, hres]
  · intro locals i hres hL hloc
    simp [LookupIdentity, hres, hL, hloc]
  · intro locals hres hL hloc hA
    simp [LookupIdentity, hres, hL, hloc, hA]
  · intro locals alloc hres hL hloc hA hget
    simp [LookupIdentity, hres, hL, hloc, hA, hget]
  · intro locals alloc hres hL hloc hA hget
    simp [LookupIdentity, hres, hL, hloc, hA, hget]
  · intro locals alloc nid hres hL hloc hA hget hne
    simp [LookupIdentity, hres, hL, hloc, hA, hget, hne]

/-- Witness for the LookupIdentity resolution claim: the unconfigured
allocator clause at labels app=bar against cexM, and the error clause
against cexMAlloc. -/
theorem lookupIdentity_resolution_order_witness :
    LookupIdentity cexReserved cexM [appBar] = GoResult.ok none ∧
    LookupIdentity cexReserved cexMAlloc [appBar] = GoResult.ok none :=
  ⟨(lookupIdentity_resolution_order cexReserved cexM [appBar]).2.2.1
      cexLocals rfl rfl rfl rfl,
    (lookupIdentity_resolution_order cexReserved cexMAlloc [appBar]).2.2.2.1
      cexLocals cexAlloc rfl rfl rfl rfl rfl⟩

end Cilium
